import Mathlib

/-!
Shallow embedding of `src/image_similarity_checker.py` and verification of the
specification's claims about it.

External collaborators (the filesystem, `cv2.imdecode`, the `ssim` metric,
console rendering) are modelled as parameters or as dimension-level models:
an in-memory pixel matrix is reduced to its dimensions, channel count and an
opaque content tag, which is all the scanned control flow inspects.  All
observable events of a scan (visited index pairs, metric invocations, scoring
outcomes, the collected and displayed result lists, the returned value or the
propagated exception) are recorded in a `ScanRun` record.
-/

namespace ImageSim

/-- An in-memory pixel matrix (a decoded `numpy` array): its dimensions, its
channel count, and an opaque tag standing for the pixel content. -/
structure Mat where
  rows : Nat
  cols : Nat
  channels : Nat
  tag : Nat
deriving DecidableEq

/-- Model of `ndarray.shape`, as the triple `(rows, cols, channels)`. -/
def Mat.shape (m : Mat) : Nat × Nat × Nat := (m.rows, m.cols, m.channels)

/-- Model of `cv2.resize(m, size)` where `size = (width, height)`: the result
has the requested dimensions; channel count and content identity are kept. -/
def cv2_resize (m : Mat) (size : Nat × Nat) : Mat :=
  { m with cols := size.1, rows := size.2 }

/-- Model of `cv2.cvtColor(m, cv2.COLOR_BGR2GRAY)`: single-channel output of
the same dimensions. -/
def cv2_cvtColor_gray (m : Mat) : Mat := { m with channels := 1 }

/-- Source `preprocess_image(image, size=(300, 300))` (lines 64-67):
`cv2.resize` to `size` followed by the grayscale conversion.  Every call in the
source uses the default size `(300, 300)`, which is inlined here. -/
def preprocess_image (m : Mat) : Mat :=
  cv2_cvtColor_gray (cv2_resize m (300, 300))

/-- Multiplication on `ℚ` spelled out on the normalized representation, so that
concrete instances reduce inside the kernel; `ratMul_eq_mul` proves it is the
ordinary multiplication. -/
def ratMul (a b : ℚ) : ℚ :=
  Rat.normalize (a.num * b.num) (a.den * b.den) (Nat.mul_ne_zero a.den_nz b.den_nz)

theorem ratMul_eq_mul (a b : ℚ) : ratMul a b = a * b := (Rat.mul_def a b).symm

/-- Source `compare_images(img1, img2)` (lines 70-73): `score, _ = ssim(img1,
img2, full=True); return score * 100`.  The structural-similarity metric is an
external collaborator, passed in as `metric`; `none` models the call raising,
`some s` a returned score `s`.  `compare_images_eq` restates the scaling as a
plain multiplication by 100. -/
def compare_images (metric : Mat → Mat → Option ℚ) (m1 m2 : Mat) : Option ℚ :=
  (metric m1 m2).map (fun s => ratMul s 100)

theorem compare_images_eq (metric : Mat → Mat → Option ℚ) (m1 m2 : Mat) :
    compare_images metric m1 m2 = (metric m1 m2).map (fun s => s * 100) := by
  simp [compare_images, ratMul_eq_mul]

/-- Model of `os.path.join(dir, f)` on POSIX. -/
def joinPath (dir f : String) : String := dir ++ "/" ++ f

/-- Model of `os.path.basename(p)` on POSIX: the part after the last slash. -/
def basename (p : String) : String :=
  ⟨(p.data.reverse.takeWhile (fun c => c ≠ '/')).reverse⟩

/-- ASCII lower-casing of one character, as `str.lower` does per character. -/
def lowerChar (c : Char) : Char :=
  if 65 ≤ c.toNat ∧ c.toNat ≤ 90 then Char.ofNat (c.toNat + 32) else c

/-- Model of `s.lower()` (ASCII; the extensions compared in the source are all
ASCII). -/
def strLower (s : String) : String := ⟨s.data.map lowerChar⟩

/-- Model of `s.endswith(suffix)`. -/
def strEndsWith (s suf : String) : Bool := List.isSuffixOf suf.data s.data

/-- The extension tuple of `auto_scan_folder` (line 136). -/
def image_exts : List String := [".png", ".jpg", ".jpeg", ".bmp", ".tiff"]

/-- The candidate filter of `auto_scan_folder` (line 136):
`f.lower().endswith(('.png', '.jpg', '.jpeg', '.bmp', '.tiff'))`. -/
def isImageFile (f : String) : Bool :=
  image_exts.any (fun e => strEndsWith (strLower f) e)

/-- The preload phase of `auto_scan_folder` (lines 153-165): for each candidate
path, `load_image` (external decode, `none` = failure, modelled by the `load`
parameter) followed by `preprocess_image`; a path whose decode fails is simply
omitted (the `except` branch prints a diagnostic and continues).  Keys appear
in input order, matching a Python dict's insertion order. -/
def buildCache (load : String → Option Mat) (files : List String) :
    List (String × Mat) :=
  files.filterMap (fun p => (load p).map (fun m => (p, preprocess_image m)))

/-- One entry of `results` in `auto_scan_folder` (lines 199-203):
`(os.path.basename(img1_path), os.path.basename(img2_path), similarity)`. -/
structure MatchRes where
  left : String
  right : String
  sim : ℚ
deriving DecidableEq

/-- The two exceptions that can travel out of the pair loop:
`UnboundLocalError` (the non-tqdm branch at line 220 reads the local variable
`progress`, which is only ever assigned in the tqdm branch at line 217) and
`KeyboardInterrupt` (operator cancellation). -/
inductive PyErr where
  | unboundLocal
  | keyboardInterrupt
deriving DecidableEq

/-- The mutable state of the pair loop (lines 178-222): the cache in scope, the
`current_pair` counter and the `results` list, plus instrumentation recording
the index pairs whose loop body ran (`visited`), the argument pairs handed to
the metric (`calls`) and each scoring outcome (`scored`). -/
structure LoopState where
  cache : List (String × Mat)
  currentPair : Nat
  results : List MatchRes
  visited : List (Nat × Nat)
  calls : List (Mat × Mat)
  scored : List (String × String × Option ℚ)
deriving DecidableEq

/-- One iteration of the inner pair loop of `auto_scan_folder` (lines 179-222)
at index pair `ij`:

* `continue` when either path is missing from `processed_images` (181, 188);
* otherwise the `try` block: reconcile shapes by resizing the second operand to
  `(img1.shape[1], img1.shape[0])` when the shapes differ (194-195), invoke the
  metric (197), and append a `MatchRes` exactly when `similarity >=
  min_similarity` (198-203); a metric failure only prints and sets
  `similarity = 0` (204-206), appending nothing;
* then `current_pair += 1` and the progress update (209-222): when a pending
  interrupt (modelled by `intAfter`, the pair count at which the operator's
  `KeyboardInterrupt` is delivered) fires, the loop is left with that
  exception; otherwise, in the non-tqdm branch (`tq = false`) line 220 reads
  the never-assigned local `progress`, raising `UnboundLocalError`. -/
def scanPairStep (metric : Mat → Mat → Option ℚ) (thr : ℚ) (tq : Bool)
    (intAfter : Option Nat) (files : List String) (st : LoopState)
    (ij : Nat × Nat) : LoopState × Option PyErr :=
  let p1 := files.getD ij.1 ""
  match List.lookup p1 st.cache with
  | none => (st, none)
  | some img1 =>
    let p2 := files.getD ij.2 ""
    match List.lookup p2 st.cache with
    | none => (st, none)
    | some img2 =>
      let img2r := if img1.shape ≠ img2.shape
                   then cv2_resize img2 (img1.cols, img1.rows) else img2
      let score := compare_images metric img1 img2r
      let results1 := match score with
        | some sim =>
          if thr ≤ sim then st.results ++ [⟨basename p1, basename p2, sim⟩]
          else st.results
        | none => st.results
      let st1 : LoopState :=
        { st with currentPair := st.currentPair + 1, results := results1,
                  visited := st.visited ++ [ij],
                  calls := st.calls ++ [(img1, img2r)],
                  scored := st.scored ++ [(p1, p2, score)] }
      if intAfter = some st1.currentPair then (st1, some .keyboardInterrupt)
      else if tq then (st1, none)
      else (st1, some .unboundLocal)

/-- The pair loop, running `scanPairStep` over a list of index pairs and
stopping at the first raised exception. -/
def runPairs (metric : Mat → Mat → Option ℚ) (thr : ℚ) (tq : Bool)
    (intAfter : Option Nat) (files : List String) :
    List (Nat × Nat) → LoopState → LoopState × Option PyErr
  | [], st => (st, none)
  | ij :: rest, st =>
    match scanPairStep metric thr tq intAfter files st ij with
    | (st1, none) => runPairs metric thr tq intAfter files rest st1
    | (st1, some e) => (st1, some e)

/-- The nested loops `for i in range(n): for j in range(i+1, n)` (lines 179 and
186), flattened into the list of index pairs in iteration order. -/
def pairList (n : Nat) : List (Nat × Nat) :=
  (List.range n).flatMap
    (fun i => (List.range' (i + 1) (n - (i + 1))).map (fun j => (i, j)))

/-- Source `results.sort(key=lambda x: x[2], reverse=True)` (line 237): Python's
sort is stable, and a stable descending sort by score is exactly
`insertionSort` under this relation. -/
def sortResults (rs : List MatchRes) : List MatchRes :=
  rs.insertionSort (fun a b => b.sim ≤ a.sim)

/-- What `auto_scan_folder` hands back to its caller: the `return` value, or an
exception it lets propagate. -/
inductive ScanRet where
  | ok (rs : List MatchRes)
  | exn (e : PyErr)
deriving DecidableEq

/-- The observables of one `auto_scan_folder` run. -/
structure ScanRun where
  retval : ScanRet
  image_files : List String
  total_pairs : Nat
  cache : List (String × Mat)
  cacheAfter : List (String × Mat)
  visited : List (Nat × Nat)
  calls : List (Mat × Mat)
  scored : List (String × String × Option ℚ)
  collected : List MatchRes
  displayed : List MatchRes
  interrupted : Bool
deriving DecidableEq

/-- Source `auto_scan_folder(folder_path, min_similarity)` (lines 127-249).
Externals are parameters: `load` the decoder, `metric` the similarity metric,
`tq` whether the tqdm library imported (the display strategy), `intAfter` the
pair count at which an operator interrupt is delivered (`none` = no interrupt),
`isdir` the `os.path.isdir(folder_path)` answer and `entries` the
`os.listdir(folder_path)` listing.

Control flow: the `not isdir` and `len(image_files) < 2` configuration checks
return `[]` early (130-141); `total_pairs = comb(len(image_files), 2)` (143);
the preload builds `processed_images` (153-165); the pair loop runs (178-222);
on normal completion the results are sorted descending and the first 20 are
displayed (237-241); a `KeyboardInterrupt` is caught and `[]` is returned
(243-245); any other exception (the non-tqdm `UnboundLocalError`) propagates. -/
def auto_scan_folder (load : String → Option Mat)
    (metric : Mat → Mat → Option ℚ) (tq : Bool) (intAfter : Option Nat)
    (isdir : Bool) (entries : List String) (folder_path : String)
    (min_similarity : ℚ) : ScanRun :=
  if isdir = false then
    ⟨.ok [], [], 0, [], [], [], [], [], [], [], false⟩
  else
    let image_files := (entries.filter isImageFile).map (joinPath folder_path)
    if image_files.length < 2 then
      ⟨.ok [], image_files, 0, [], [], [], [], [], [], [], false⟩
    else
      let total_pairs := Nat.choose image_files.length 2
      let cache := buildCache load image_files
      let st0 : LoopState := ⟨cache, 0, [], [], [], []⟩
      match runPairs metric min_similarity tq intAfter image_files
          (pairList image_files.length) st0 with
      | (st, some .keyboardInterrupt) =>
        ⟨.ok [], image_files, total_pairs, cache, st.cache, st.visited,
         st.calls, st.scored, st.results, [], true⟩
      | (st, some .unboundLocal) =>
        ⟨.exn .unboundLocal, image_files, total_pairs, cache, st.cache,
         st.visited, st.calls, st.scored, st.results, [], false⟩
      | (st, none) =>
        let sorted := sortResults st.results
        ⟨.ok sorted, image_files, total_pairs, cache, st.cache, st.visited,
         st.calls, st.scored, st.results, sorted.take 20, false⟩

/-- The accumulator of the entry loop in `compare_image_with_folder`
(lines 99-117), instrumented with the entries skipped by the absolute-path
test and the entries for which a load was attempted. -/
structure FolderAcc where
  attempted : List String
  skipped : List String
  results : List (String × ℚ)
deriving DecidableEq

/-- One iteration of the entry loop of `compare_image_with_folder`
(lines 99-117) at directory entry `filename`:

* skip the entry when `os.path.abspath(file_path) ==
  os.path.abspath(base_image_path)` (101-102) — there is no extension filter
  in this mode;
* otherwise the `try` block: load (failure makes `preprocess_image(None)`
  raise, caught by the bare `except: continue`), preprocess, reconcile shapes
  against the base, score (a metric failure is likewise swallowed), and append
  `(filename, similarity)` exactly when `similarity >= min_similarity`. -/
def folderStep (load : String → Option Mat) (abspath : String → String)
    (metric : Mat → Mat → Option ℚ) (base_image_path folder_path : String)
    (min_similarity : ℚ) (base_proc : Mat) (st : FolderAcc)
    (filename : String) : FolderAcc :=
  let file_path := joinPath folder_path filename
  if abspath file_path = abspath base_image_path then
    { st with skipped := st.skipped ++ [filename] }
  else
    let st1 := { st with attempted := st.attempted ++ [filename] }
    match load file_path with
    | none => st1
    | some cm =>
      let cm_proc := preprocess_image cm
      let cm_r := if base_proc.shape ≠ cm_proc.shape
                  then cv2_resize cm_proc (base_proc.cols, base_proc.rows)
                  else cm_proc
      match compare_images metric base_proc cm_r with
      | none => st1
      | some sim =>
        if min_similarity ≤ sim then
          { st1 with results := st1.results ++ [(filename, sim)] }
        else st1

/-- The observables of one `compare_image_with_folder` run that gets past
loading the base image. -/
structure FolderRun where
  attempted : List String
  skipped : List String
  collected : List (String × ℚ)
  displayed : List (String × ℚ)
deriving DecidableEq

/-- Source `compare_image_with_folder(base_image_path, folder_path,
min_similarity)` (lines 93-125).  When the base image fails to load,
`preprocess_image(None)` raises outside any handler and nothing runs (`none`).
Otherwise the entry loop accumulates results in scan order and the final
report sorts them by score descending before display (line 120); when no
result was collected the displayed list is empty. -/
def compare_image_with_folder (load : String → Option Mat)
    (abspath : String → String) (metric : Mat → Mat → Option ℚ)
    (base_image_path folder_path : String) (entries : List String)
    (min_similarity : ℚ) : Option FolderRun :=
  match load base_image_path with
  | none => none
  | some bm =>
    let base_proc := preprocess_image bm
    let fin := entries.foldl
      (folderStep load abspath metric base_image_path folder_path
        min_similarity base_proc) ⟨[], [], []⟩
    some ⟨fin.attempted, fin.skipped, fin.results,
          fin.results.insertionSort (fun a b => b.2 ≤ a.2)⟩

/-- The threshold filter of the pair loop, written as one pass over the trace
of scoring outcomes: a scored pair contributes a `MatchRes` exactly when the
metric succeeded and its percentage reached the threshold (inclusively). -/
def applyThreshold (thr : ℚ) (tr : List (String × String × Option ℚ)) :
    List MatchRes :=
  tr.filterMap (fun x => match x.2.2 with
    | some s => if thr ≤ s then some ⟨basename x.1, basename x.2.1, s⟩ else none
    | none => none)

/-- Pointwise description of one pair-loop body at index pair `ij`: `none` when
either path is missing from the cache (the loop `continue`s), otherwise the
two matrices handed to the metric, the second reconciled to the first's
dimensions when the shapes differ. -/
def callOf (cache : List (String × Mat)) (files : List String)
    (ij : Nat × Nat) : Option (Mat × Mat) :=
  match List.lookup (files.getD ij.1 "") cache,
        List.lookup (files.getD ij.2 "") cache with
  | some img1, some img2 =>
    some (img1, if img1.shape ≠ img2.shape
                then cv2_resize img2 (img1.cols, img1.rows) else img2)
  | some _, none => none
  | none, _ => none

/-- Pointwise description of one scoring outcome at index pair `ij`. -/
def scoreOf (metric : Mat → Mat → Option ℚ) (cache : List (String × Mat))
    (files : List String) (ij : Nat × Nat) :
    Option (String × String × Option ℚ) :=
  (callOf cache files ij).map
    (fun c => (files.getD ij.1 "", files.getD ij.2 "",
               compare_images metric c.1 c.2))

/-- Pointwise description of one base-vs-folder loop body at entry `f`: the
`(filename, similarity)` pair it contributes, or `none` when the entry is the
base itself, fails to load, fails to score, or scores under the threshold. -/
def folderScoreOf (load : String → Option Mat) (abspath : String → String)
    (metric : Mat → Mat → Option ℚ) (base_image_path folder_path : String)
    (min_similarity : ℚ) (base_proc : Mat) (f : String) : Option (String × ℚ) :=
  if abspath (joinPath folder_path f) = abspath base_image_path then none
  else
    match load (joinPath folder_path f) with
    | none => none
    | some cm =>
      let cm_proc := preprocess_image cm
      let cm_r := if base_proc.shape ≠ cm_proc.shape
                  then cv2_resize cm_proc (base_proc.cols, base_proc.rows)
                  else cm_proc
      match compare_images metric base_proc cm_r with
      | none => none
      | some sim => if min_similarity ≤ sim then some (f, sim) else none

/-- What characterizes every argument pair ever handed to the metric by the
pair loop over cache `C`: the first operand is a cache entry, the second is a
cache entry as well, passed through the local dimension reconciliation. -/
def CallP (C : List (String × Mat)) (c : Mat × Mat) : Prop :=
  ∃ p1 p2 m1 m2, List.lookup p1 C = some m1 ∧ List.lookup p2 C = some m2 ∧
    c = (m1, if m1.shape ≠ m2.shape
             then cv2_resize m2 (m1.cols, m1.rows) else m2)

/-- Test fixture: a decoder for a folder `d` holding five decodable images
with fixed content tags (`a` and `b` byte-identical), an undecodable file
`d/bad.png`, a byte-identical copy `d/copy.png` of `d/base.png`, and a
decodable file `d/zz.txt` (an image renamed to a non-image extension:
`cv2.imdecode` decodes by content, not by name). -/
def demoLoad (p : String) : Option Mat :=
  if p = "d/a.png" then some ⟨400, 640, 3, 1⟩
  else if p = "d/b.png" then some ⟨400, 640, 3, 1⟩
  else if p = "d/c.png" then some ⟨200, 300, 3, 3⟩
  else if p = "d/d.png" then some ⟨100, 100, 3, 4⟩
  else if p = "d/e.png" then some ⟨300, 200, 3, 5⟩
  else if p = "d/base.png" then some ⟨50, 50, 3, 9⟩
  else if p = "d/copy.png" then some ⟨50, 50, 3, 9⟩
  else if p = "d/zz.txt" then some ⟨50, 50, 3, 9⟩
  else none

/-- Test fixture: a metric scoring 1 for equal content tags and 1/2 for
different ones. -/
def demoMetric (m1 m2 : Mat) : Option ℚ :=
  if m1.tag = m2.tag then some 1 else some (mkRat 1 2)

/-- Test fixture: a metric that raises whenever content tag 3 is involved and
otherwise behaves like `demoMetric`. -/
def demoMetricFail (m1 m2 : Mat) : Option ℚ :=
  if m1.tag = 3 ∨ m2.tag = 3 then none else demoMetric m1 m2

/-! Basic facts about the embedded operations. -/

theorem preprocess_image_shape (m : Mat) :
    (preprocess_image m).shape = (300, 300, 1) := rfl

theorem applyThreshold_append (thr : ℚ)
    (a b : List (String × String × Option ℚ)) :
    applyThreshold thr (a ++ b) = applyThreshold thr a ++ applyThreshold thr b := by
  unfold applyThreshold
  exact List.filterMap_append a b _

/-- One pair-loop body, re-expressed through the pointwise descriptions
`callOf`, `scoreOf` and `applyThreshold`. -/
theorem scanPairStep_eq (metric : Mat → Mat → Option ℚ) (thr : ℚ) (tq : Bool)
    (intAfter : Option Nat) (files : List String) (st : LoopState)
    (ij : Nat × Nat) :
    scanPairStep metric thr tq intAfter files st ij =
      match callOf st.cache files ij with
      | none => (st, none)
      | some c =>
        let score := compare_images metric c.1 c.2
        let st1 : LoopState :=
          { st with currentPair := st.currentPair + 1,
                    results := st.results ++ applyThreshold thr
                      [(files.getD ij.1 "", files.getD ij.2 "", score)],
                    visited := st.visited ++ [ij],
                    calls := st.calls ++ [c],
                    scored := st.scored ++
                      [(files.getD ij.1 "", files.getD ij.2 "", score)] }
        if intAfter = some st1.currentPair then (st1, some .keyboardInterrupt)
        else if tq then (st1, none) else (st1, some .unboundLocal) := by
  unfold scanPairStep callOf
  dsimp only
  cases List.lookup (files.getD ij.1 "") st.cache with
  | none => rfl
  | some img1 =>
    cases List.lookup (files.getD ij.2 "") st.cache with
    | none => rfl
    | some img2 =>
      dsimp only [applyThreshold, List.filterMap]
      cases compare_images metric img1
          (if img1.shape ≠ img2.shape
           then cv2_resize img2 (img1.cols, img1.rows) else img2) with
      | none => simp
      | some s =>
        dsimp only
        split <;> by_cases h : thr ≤ s <;> simp [h]

/-- Any state property preserved by one loop body is preserved by the whole
loop, whether it completes or stops at an exception. -/
theorem runPairs_preserve (metric : Mat → Mat → Option ℚ) (thr : ℚ) (tq : Bool)
    (intAfter : Option Nat) (files : List String) (P : LoopState → Prop)
    (hP : ∀ st ij, P st →
      P (scanPairStep metric thr tq intAfter files st ij).1) :
    ∀ ps st, P st → P (runPairs metric thr tq intAfter files ps st).1 := by
  intro ps
  induction ps with
  | nil => intro st h; exact h
  | cons ij rest ih =>
    intro st h
    rw [runPairs]
    rcases hs : scanPairStep metric thr tq intAfter files st ij with ⟨st1, e⟩
    have h1 : P st1 := by
      have := hP st ij h
      rw [hs] at this
      exact this
    cases e with
    | none => exact ih st1 h1
    | some e => exact h1

/-- The loop never changes the cache: the `processed_images` dict is only read
during scoring. -/
theorem runPairs_cache (metric : Mat → Mat → Option ℚ) (thr : ℚ) (tq : Bool)
    (intAfter : Option Nat) (files : List String) (ps : List (Nat × Nat))
    (st : LoopState) :
    (runPairs metric thr tq intAfter files ps st).1.cache = st.cache := by
  refine runPairs_preserve metric thr tq intAfter files
    (fun s => s.cache = st.cache) ?_ ps st rfl
  intro s ij h
  rw [scanPairStep_eq]
  cases callOf s.cache files ij with
  | none => exact h
  | some c =>
    dsimp only
    split
    · exact h
    · split <;> exact h

/-- One pair-loop body in the completed mode (tqdm present, no interrupt):
nothing is raised and the state advances by the pointwise description. -/
theorem scanPairStep_true_none (metric : Mat → Mat → Option ℚ) (thr : ℚ)
    (files : List String) (st : LoopState) (ij : Nat × Nat) :
    scanPairStep metric thr true none files st ij =
      ((match callOf st.cache files ij with
        | none => st
        | some c =>
          { st with currentPair := st.currentPair + 1,
                    results := st.results ++ applyThreshold thr
                      [(files.getD ij.1 "", files.getD ij.2 "",
                        compare_images metric c.1 c.2)],
                    visited := st.visited ++ [ij],
                    calls := st.calls ++ [c],
                    scored := st.scored ++
                      [(files.getD ij.1 "", files.getD ij.2 "",
                        compare_images metric c.1 c.2)] }),
       none) := by
  rw [scanPairStep_eq]
  cases callOf st.cache files ij with
  | none => rfl
  | some c => simp

/-- With the tqdm strategy and no pending interrupt the loop completes, and
its final state is described pointwise by `callOf` and `scoreOf`. -/
theorem runPairs_complete (metric : Mat → Mat → Option ℚ) (thr : ℚ)
    (files : List String) :
    ∀ (ps : List (Nat × Nat)) (st : LoopState),
      runPairs metric thr true none files ps st =
      (⟨st.cache,
        st.currentPair +
          (ps.filter (fun ij => (callOf st.cache files ij).isSome)).length,
        st.results ++ applyThreshold thr
          (ps.filterMap (scoreOf metric st.cache files)),
        st.visited ++ ps.filter (fun ij => (callOf st.cache files ij).isSome),
        st.calls ++ ps.filterMap (callOf st.cache files),
        st.scored ++ ps.filterMap (scoreOf metric st.cache files)⟩, none) := by
  intro ps
  induction ps with
  | nil => intro st; simp [runPairs, applyThreshold]
  | cons ij rest ih =>
    intro st
    have hcons : ∀ (x : String × String × Option ℚ) l,
        applyThreshold thr (x :: l) =
          applyThreshold thr [x] ++ applyThreshold thr l :=
      fun x l => applyThreshold_append thr [x] l
    simp only [runPairs, scanPairStep_true_none]
    cases hcall : callOf st.cache files ij with
    | none =>
      dsimp only
      rw [ih st]
      simp [List.filter_cons, List.filterMap_cons, scoreOf, hcall]
    | some c =>
      dsimp only
      rw [ih]
      simp only [List.filter_cons, List.filterMap_cons, scoreOf, hcall,
        Option.isSome_some, Option.map_some', if_true]
      refine Prod.ext ?_ rfl
      simp only [LoopState.mk.injEq]
      have hx := hcons (files.getD ij.1 "", files.getD ij.2 "",
        compare_images metric c.1 c.2)
        (rest.filterMap (scoreOf metric st.cache files))
      refine ⟨trivial, by simp only [List.length_cons]; omega, ?_,
        by simp, by simp, by simp [hx]⟩
      rw [hx, List.append_assoc]

/-- A completed folder scan (tqdm strategy, no interrupt, existing folder, at
least two candidate files), described field by field: the candidate list, the
up-front `C(m, 2)` pair total, the cache, the visited pairs, the metric calls,
the scoring trace, the threshold-filtered collection, the sorted return value
and the 20-entry display view. -/
theorem auto_scan_fields (load : String → Option Mat)
    (metric : Mat → Mat → Option ℚ) (entries : List String)
    (folder_path : String) (thr : ℚ)
    (hn : 2 ≤ (entries.filter isImageFile).length) :
    auto_scan_folder load metric true none true entries folder_path thr =
      (let files := (entries.filter isImageFile).map (joinPath folder_path)
       let cache := buildCache load files
       let scored := (pairList files.length).filterMap (scoreOf metric cache files)
       let collected := applyThreshold thr scored
       ⟨.ok (sortResults collected), files, Nat.choose files.length 2, cache,
        cache, (pairList files.length).filter
          (fun ij => (callOf cache files ij).isSome),
        (pairList files.length).filterMap (callOf cache files),
        scored, collected, (sortResults collected).take 20, false⟩) := by
  unfold auto_scan_folder
  rw [if_neg (by decide)]
  rw [if_neg (by simp only [List.length_map]; omega)]
  simp only [runPairs_complete]
  rfl

/-- A cache hit always comes from a successful decode of that very path,
preprocessed. -/
theorem lookup_buildCache_some (load : String → Option Mat) :
    ∀ (fs : List String) (p : String) (m : Mat),
      List.lookup p (buildCache load fs) = some m →
      ∃ m0, load p = some m0 ∧ m = preprocess_image m0 := by
  intro fs
  induction fs with
  | nil => intro p m h; simp [buildCache] at h
  | cons f fs ih =>
    intro p m h
    unfold buildCache at h
    rw [List.filterMap_cons] at h
    cases hl : load f with
    | none => rw [hl] at h; exact ih p m h
    | some m0 =>
      rw [hl] at h
      simp only [Option.map_some', List.lookup] at h
      cases hb : p == f with
      | true =>
        rw [hb] at h
        simp only [Option.some.injEq] at h
        exact ⟨m0, by rw [eq_of_beq hb, hl], h.symm⟩
      | false => rw [hb] at h; exact ih p m h

/-- A path that fails to decode is absent from the cache: no entry, no error
record. -/
theorem lookup_buildCache_none (load : String → Option Mat) :
    ∀ (fs : List String) (p : String), load p = none →
      List.lookup p (buildCache load fs) = none := by
  intro fs
  induction fs with
  | nil => intro p _; simp [buildCache]
  | cons f fs ih =>
    intro p hp
    unfold buildCache
    rw [List.filterMap_cons]
    cases hl : load f with
    | none => exact ih p hp
    | some m0 =>
      simp only [Option.map_some', List.lookup]
      cases hb : p == f with
      | true =>
        rw [eq_of_beq hb] at hp
        rw [hp] at hl
        cases hl
      | false => exact ih p hp

/-- When every candidate decodes, the cache has one entry per candidate. -/
theorem buildCache_length (load : String → Option Mat) :
    ∀ fs : List String, (∀ f ∈ fs, (load f).isSome) →
      (buildCache load fs).length = fs.length := by
  intro fs
  induction fs with
  | nil => intro _; rfl
  | cons f fs ih =>
    intro h
    have hf : (load f).isSome := h f (by simp)
    unfold buildCache
    rw [List.filterMap_cons]
    cases hl : load f with
    | none => rw [hl] at hf; cases hf
    | some m0 =>
      simp only [Option.map_some', List.length_cons]
      have := ih (fun g hg => h g (by simp [hg]))
      unfold buildCache at this
      rw [this]

/-- Membership in the flattened nested loops: exactly the index pairs with
`i < j < n`. -/
theorem mem_pairList {n : Nat} {ij : Nat × Nat} :
    ij ∈ pairList n ↔ ij.1 < ij.2 ∧ ij.2 < n := by
  obtain ⟨i, j⟩ := ij
  simp only [pairList, List.mem_flatMap, List.mem_map, List.mem_range,
    List.mem_range'_1, Prod.mk.injEq]
  constructor
  · rintro ⟨a, ha, b, ⟨hb1, hb2⟩, rfl, rfl⟩
    omega
  · rintro ⟨h1, h2⟩
    exact ⟨i, by omega, j, ⟨by omega, by omega⟩, rfl, rfl⟩

/-- The flattened nested loops enumerate each index pair at most once. -/
theorem nodup_pairList (n : Nat) : (pairList n).Nodup := by
  unfold pairList
  rw [List.nodup_flatMap]
  constructor
  · intro i _
    exact (List.nodup_range' _ _).map (fun a b h => congrArg Prod.snd h)
  · refine (List.pairwise_lt_range _).imp ?_
    intro a b hab
    intro x hx hx'
    simp only [List.mem_map] at hx hx'
    obtain ⟨j, _, rfl⟩ := hx
    obtain ⟨j2, _, h2⟩ := hx'
    have : b = a := congrArg Prod.fst h2
    omega

/-- Everything that passes the threshold filter reached the threshold. -/
theorem applyThreshold_sim (thr : ℚ) (tr : List (String × String × Option ℚ)) :
    ∀ m ∈ applyThreshold thr tr, thr ≤ m.sim := by
  intro m hm
  unfold applyThreshold at hm
  rw [List.mem_filterMap] at hm
  obtain ⟨x, _, hfx⟩ := hm
  rcases hs : x.2.2 with _ | s
  · simp only [hs] at hfx; cases hfx
  · simp only [hs] at hfx
    by_cases ht : thr ≤ s
    · rw [if_pos ht] at hfx
      cases hfx
      exact ht
    · rw [if_neg ht] at hfx; cases hfx

/-- Memberships of the threshold filter: a `MatchRes` for every successfully
scored entry that reached the threshold, and nothing else. -/
theorem applyThreshold_mem (thr : ℚ) (tr : List (String × String × Option ℚ))
    (m : MatchRes) :
    m ∈ applyThreshold thr tr ↔
      ∃ x ∈ tr, ∃ s, x.2.2 = some s ∧ thr ≤ s ∧
        m = ⟨basename x.1, basename x.2.1, s⟩ := by
  unfold applyThreshold
  rw [List.mem_filterMap]
  constructor
  · rintro ⟨x, hx, hfx⟩
    rcases hs : x.2.2 with _ | s
    · simp only [hs] at hfx; cases hfx
    · simp only [hs] at hfx
      by_cases ht : thr ≤ s
      · rw [if_pos ht] at hfx
        cases hfx
        exact ⟨x, hx, s, hs, ht, rfl⟩
      · rw [if_neg ht] at hfx; cases hfx
  · rintro ⟨x, hx, s, hs, ht, rfl⟩
    exact ⟨x, hx, by simp only [hs]; rw [if_pos ht]⟩

/-- Raising the threshold never lengthens the filtered list. -/
theorem applyThreshold_antitone (t t' : ℚ) (ht : t ≤ t') :
    ∀ tr : List (String × String × Option ℚ),
      (applyThreshold t' tr).length ≤ (applyThreshold t tr).length := by
  intro tr
  induction tr with
  | nil => exact le_refl 0
  | cons x tr ih =>
    unfold applyThreshold at ih ⊢
    rw [List.filterMap_cons, List.filterMap_cons]
    rcases hs : x.2.2 with _ | s
    · simp only [hs]
      exact ih
    · simp only [hs]
      by_cases h2 : t' ≤ s <;> by_cases h1 : t ≤ s
      · simp only [if_pos h2, if_pos h1, List.length_cons]; omega
      · exact absurd (le_trans ht h2) h1
      · simp only [if_neg h2, if_pos h1, List.length_cons]; omega
      · simp only [if_neg h2, if_neg h1]; exact ih

/-- The final sort is descending by score. -/
theorem sortResults_sorted (rs : List MatchRes) :
    (sortResults rs).Pairwise (fun a b => b.sim ≤ a.sim) := by
  haveI h1 : IsTotal MatchRes (fun a b => b.sim ≤ a.sim) :=
    ⟨fun a b => le_total b.sim a.sim⟩
  haveI h2 : IsTrans MatchRes (fun a b => b.sim ≤ a.sim) :=
    ⟨fun a b c hab hbc => le_trans hbc hab⟩
  exact List.sorted_insertionSort _ rs

/-- The final sort only reorders; nothing is added or dropped. -/
theorem sortResults_perm (rs : List MatchRes) : (sortResults rs).Perm rs :=
  List.perm_insertionSort _ rs

/-- Inserting an element into a list leaves every score class it does not
belong to untouched, and puts it in front of its own score class — elements
it displaced all score strictly higher. -/
theorem filter_orderedInsert_key (q : ℚ) (a : MatchRes) :
    ∀ l : List MatchRes,
      (List.orderedInsert (fun x y => y.sim ≤ x.sim) a l).filter
          (fun x => x.sim = q) =
        if a.sim = q
        then a :: l.filter (fun x => x.sim = q)
        else l.filter (fun x => x.sim = q) := by
  intro l
  induction l with
  | nil =>
    by_cases haq : a.sim = q <;> simp [List.orderedInsert, haq]
  | cons b l ih =>
    rw [List.orderedInsert]
    by_cases hr : b.sim ≤ a.sim
    · rw [if_pos hr, List.filter_cons]
      by_cases haq : a.sim = q
      · rw [if_pos (by simp [haq]), if_pos haq]
      · rw [if_neg (by simp [haq]), if_neg haq]
    · rw [if_neg hr]
      have hba : a.sim < b.sim := lt_of_not_le hr
      by_cases hbq : b.sim = q
      · have haq : ¬ (a.sim = q) := by
          intro h
          rw [h] at hba
          exact absurd hbq (ne_of_gt hba)
        rw [List.filter_cons, if_pos (by simp [hbq]), ih, if_neg haq,
          if_neg haq, List.filter_cons, if_pos (by simp [hbq])]
      · rw [List.filter_cons, if_neg (by simp [hbq]), ih]
        by_cases haq : a.sim = q
        · rw [if_pos haq, if_pos haq, List.filter_cons, if_neg (by simp [hbq])]
        · rw [if_neg haq, if_neg haq, List.filter_cons, if_neg (by simp [hbq])]

/-- Stability of the final sort: within each score class the enumeration
order of the collected results is preserved. -/
theorem sortResults_filter_key (q : ℚ) :
    ∀ rs : List MatchRes,
      (sortResults rs).filter (fun x => x.sim = q) =
        rs.filter (fun x => x.sim = q) := by
  intro rs
  induction rs with
  | nil => rfl
  | cons a rs ih =>
    unfold sortResults at ih ⊢
    rw [List.insertionSort]
    rw [filter_orderedInsert_key, ih]
    by_cases haq : a.sim = q <;> simp [haq, List.filter_cons]

/-- The loop's control flow and its whole trace except the `results` list are
independent of the threshold: two runs whose starting states agree outside
`results` stay in lockstep and raise the same exception. -/
theorem runPairs_agree (metric : Mat → Mat → Option ℚ) (t t' : ℚ) (tq : Bool)
    (ia : Option Nat) (files : List String) :
    ∀ (ps : List (Nat × Nat)) (st st' : LoopState),
      st.cache = st'.cache → st.currentPair = st'.currentPair →
      st.visited = st'.visited → st.calls = st'.calls → st.scored = st'.scored →
      ((runPairs metric t tq ia files ps st).1.cache,
       (runPairs metric t tq ia files ps st).1.currentPair,
       (runPairs metric t tq ia files ps st).1.visited,
       (runPairs metric t tq ia files ps st).1.calls,
       (runPairs metric t tq ia files ps st).1.scored,
       (runPairs metric t tq ia files ps st).2) =
      ((runPairs metric t' tq ia files ps st').1.cache,
       (runPairs metric t' tq ia files ps st').1.currentPair,
       (runPairs metric t' tq ia files ps st').1.visited,
       (runPairs metric t' tq ia files ps st').1.calls,
       (runPairs metric t' tq ia files ps st').1.scored,
       (runPairs metric t' tq ia files ps st').2) := by
  intro ps
  induction ps with
  | nil =>
    intro st st' h1 h2 h3 h4 h5
    simp [runPairs, h1, h2, h3, h4, h5]
  | cons ij rest ih =>
    intro st st' h1 h2 h3 h4 h5
    simp only [runPairs, scanPairStep_eq, h1, h2, h3, h4, h5]
    cases hcall : callOf st'.cache files ij with
    | none => exact ih st st' h1 h2 h3 h4 h5
    | some c =>
      dsimp only
      split_ifs
      · rfl
      · exact ih _ _ rfl rfl rfl rfl rfl
      · rfl

/-- The `results` list is, at every moment, exactly the threshold filter of
the scoring trace so far. -/
theorem runPairs_results_spec (metric : Mat → Mat → Option ℚ) (thr : ℚ)
    (tq : Bool) (ia : Option Nat) (files : List String)
    (ps : List (Nat × Nat)) (st : LoopState)
    (h : st.results = applyThreshold thr st.scored) :
    (runPairs metric thr tq ia files ps st).1.results =
      applyThreshold thr (runPairs metric thr tq ia files ps st).1.scored := by
  refine runPairs_preserve metric thr tq ia files
    (fun s => s.results = applyThreshold thr s.scored) ?_ ps st h
  intro s ij hs
  rw [scanPairStep_eq]
  cases callOf s.cache files ij with
  | none => exact hs
  | some c =>
    dsimp only
    split
    · dsimp only; rw [hs, applyThreshold_append]
    · split
      · dsimp only; rw [hs, applyThreshold_append]
      · dsimp only; rw [hs, applyThreshold_append]

/-- One scored pair contributes at most one result. -/
theorem applyThreshold_single_le (thr : ℚ) (x : String × String × Option ℚ) :
    (applyThreshold thr [x]).length ≤ 1 := by
  unfold applyThreshold
  rcases hs : x.2.2 with _ | s
  · simp [hs]
  · by_cases h : thr ≤ s <;> simp [hs, h]

/-- Never more results than processed pairs. -/
theorem runPairs_results_le (metric : Mat → Mat → Option ℚ) (thr : ℚ)
    (tq : Bool) (ia : Option Nat) (files : List String)
    (ps : List (Nat × Nat)) (st : LoopState)
    (h : st.results.length ≤ st.currentPair) :
    (runPairs metric thr tq ia files ps st).1.results.length ≤
      (runPairs metric thr tq ia files ps st).1.currentPair := by
  refine runPairs_preserve metric thr tq ia files
    (fun s => s.results.length ≤ s.currentPair) ?_ ps st h
  intro s ij hs
  rw [scanPairStep_eq]
  cases callOf s.cache files ij with
  | none => exact hs
  | some c =>
    have hone := applyThreshold_single_le thr
      (files.getD ij.1 "", files.getD ij.2 "", compare_images metric c.1 c.2)
    dsimp only
    split
    · dsimp only; rw [List.length_append]; omega
    · split
      · dsimp only; rw [List.length_append]; omega
      · dsimp only; rw [List.length_append]; omega

/-- When the loop stops at a `KeyboardInterrupt`, the pending-interrupt count
is exactly the final pair counter: the interrupt fired right there. -/
theorem runPairs_interrupt_counter (metric : Mat → Mat → Option ℚ) (thr : ℚ)
    (tq : Bool) (ia : Option Nat) (files : List String) :
    ∀ (ps : List (Nat × Nat)) (st st1 : LoopState),
      runPairs metric thr tq ia files ps st = (st1, some .keyboardInterrupt) →
      ia = some st1.currentPair := by
  intro ps
  induction ps with
  | nil => intro st st1 h; simp [runPairs] at h
  | cons ij rest ih =>
    intro st st1 h
    simp only [runPairs, scanPairStep_eq] at h
    cases hcall : callOf st.cache files ij with
    | none =>
      simp only [hcall] at h
      exact ih _ _ h
    | some c =>
      simp only [hcall] at h
      split at h
      · exact ih _ _ h
      · rename_i st2 e2 heq
        simp only [Prod.mk.injEq, Option.some.injEq] at h
        obtain ⟨hst, he⟩ := h
        subst hst
        subst he
        split_ifs at heq with hc1 hc2
        · simp only [Prod.mk.injEq] at heq
          rw [← heq.1]
          exact hc1
        · simp at heq
        · simp at heq

/-- The loop body runs exactly when both endpoints are cached. -/
theorem callOf_isSome (C : List (String × Mat)) (files : List String)
    (ij : Nat × Nat) :
    (callOf C files ij).isSome =
      ((List.lookup (files.getD ij.1 "") C).isSome &&
       (List.lookup (files.getD ij.2 "") C).isSome) := by
  unfold callOf
  cases List.lookup (files.getD ij.1 "") C with
  | none => rfl
  | some m1 =>
    cases List.lookup (files.getD ij.2 "") C with
    | none => rfl
    | some m2 => rfl

/-- Any run of the loop only ever hands the metric argument pairs drawn from
the cache, second operand locally reconciled. -/
theorem runPairs_calls (metric : Mat → Mat → Option ℚ) (thr : ℚ) (tq : Bool)
    (ia : Option Nat) (files : List String) (C : List (String × Mat))
    (ps : List (Nat × Nat)) (st : LoopState) (hc : st.cache = C)
    (h0 : ∀ c ∈ st.calls, CallP C c) :
    ∀ c ∈ (runPairs metric thr tq ia files ps st).1.calls, CallP C c := by
  have key := runPairs_preserve metric thr tq ia files
    (fun s => s.cache = C ∧ ∀ c ∈ s.calls, CallP C c) ?_ ps st ⟨hc, h0⟩
  · exact key.2
  intro s ij hs
  obtain ⟨hsc, hcalls⟩ := hs
  rw [scanPairStep_eq]
  cases hcall : callOf s.cache files ij with
  | none => exact ⟨hsc, hcalls⟩
  | some c =>
    have hCP : CallP C c := by
      unfold callOf at hcall
      rcases hl1 : List.lookup (files.getD ij.1 "") s.cache with _ | m1
      · rw [hl1] at hcall; cases hcall
      · rcases hl2 : List.lookup (files.getD ij.2 "") s.cache with _ | m2
        · rw [hl1, hl2] at hcall; cases hcall
        · rw [hl1, hl2] at hcall
          cases hcall
          rw [hsc] at hl1 hl2
          exact ⟨files.getD ij.1 "", files.getD ij.2 "", m1, m2, hl1, hl2, rfl⟩
    have hnext : ∀ c' ∈ s.calls ++ [c], CallP C c' := by
      intro c' hc'
      rcases List.mem_append.mp hc' with h | h
      · exact hcalls c' h
      · rw [List.mem_singleton] at h
        rw [h]
        exact hCP
    dsimp only
    split
    · exact ⟨hsc, hnext⟩
    · split
      · exact ⟨hsc, hnext⟩
      · exact ⟨hsc, hnext⟩

/-- Structural facts holding for every `auto_scan_folder` run, whatever the
display strategy, interrupt timing or outcome: the cache after the scan is the
cache before it; that cache is the preload of the enumerated candidates (or
empty on a configuration early-return); every metric call argument pair is
drawn from the cache with only the local reconciliation applied. -/
theorem auto_scan_props (load : String → Option Mat)
    (metric : Mat → Mat → Option ℚ) (tq : Bool) (ia : Option Nat)
    (isdir : Bool) (entries : List String) (folder_path : String) (thr : ℚ) :
    (auto_scan_folder load metric tq ia isdir entries folder_path thr).cacheAfter =
      (auto_scan_folder load metric tq ia isdir entries folder_path thr).cache ∧
    ((auto_scan_folder load metric tq ia isdir entries folder_path thr).cache = [] ∨
      (auto_scan_folder load metric tq ia isdir entries folder_path thr).cache =
        buildCache load
          (auto_scan_folder load metric tq ia isdir entries folder_path thr).image_files) ∧
    (∀ c ∈ (auto_scan_folder load metric tq ia isdir entries folder_path thr).calls,
      CallP (auto_scan_folder load metric tq ia isdir entries folder_path thr).cache c) := by
  unfold auto_scan_folder
  split
  · simp
  · dsimp only
    split
    · simp
    · rcases hr : runPairs metric thr tq ia
        ((entries.filter isImageFile).map (joinPath folder_path))
        (pairList ((entries.filter isImageFile).map (joinPath folder_path)).length)
        ⟨buildCache load ((entries.filter isImageFile).map (joinPath folder_path)),
         0, [], [], [], []⟩ with ⟨stf, e⟩
      have hcache : stf.cache =
          buildCache load ((entries.filter isImageFile).map (joinPath folder_path)) := by
        have := runPairs_cache metric thr tq ia
          ((entries.filter isImageFile).map (joinPath folder_path))
          (pairList ((entries.filter isImageFile).map (joinPath folder_path)).length)
          ⟨buildCache load ((entries.filter isImageFile).map (joinPath folder_path)),
           0, [], [], [], []⟩
        rw [hr] at this
        exact this
      have hcalls : ∀ c ∈ stf.calls,
          CallP (buildCache load ((entries.filter isImageFile).map (joinPath folder_path))) c := by
        have := runPairs_calls metric thr tq ia
          ((entries.filter isImageFile).map (joinPath folder_path))
          (buildCache load ((entries.filter isImageFile).map (joinPath folder_path)))
          (pairList ((entries.filter isImageFile).map (joinPath folder_path)).length)
          ⟨buildCache load ((entries.filter isImageFile).map (joinPath folder_path)),
           0, [], [], [], []⟩ rfl (by intro c hc; cases hc)
        rw [hr] at this
        exact this
      rcases e with _ | e
      · exact ⟨hcache, Or.inr rfl, hcalls⟩
      · cases e
        · exact ⟨hcache, Or.inr rfl, hcalls⟩
        · exact ⟨hcache, Or.inr rfl, hcalls⟩

/-- When a run reports an interrupt, the `except KeyboardInterrupt` handler
ran: the function returned the literal empty list, displayed nothing, and the
matches collected before the interrupt were discarded. -/
theorem auto_scan_interrupted (load : String → Option Mat)
    (metric : Mat → Mat → Option ℚ) (tq : Bool) (ia : Option Nat)
    (isdir : Bool) (entries : List String) (folder_path : String) (thr : ℚ)
    (h : (auto_scan_folder load metric tq ia isdir entries folder_path thr).interrupted
      = true) :
    (auto_scan_folder load metric tq ia isdir entries folder_path thr).retval =
      .ok [] ∧
    (auto_scan_folder load metric tq ia isdir entries folder_path thr).displayed
      = [] := by
  unfold auto_scan_folder at h ⊢
  split at h
  · cases h
  · rename_i hdir
    rw [if_neg hdir]
    dsimp only at h ⊢
    split at h
    · cases h
    · rename_i hlen
      rw [if_neg hlen]
      rcases hr : runPairs metric thr tq ia
        ((entries.filter isImageFile).map (joinPath folder_path))
        (pairList ((entries.filter isImageFile).map (joinPath folder_path)).length)
        ⟨buildCache load ((entries.filter isImageFile).map (joinPath folder_path)),
         0, [], [], [], []⟩ with ⟨stf, e⟩
      rw [hr] at h
      rcases e with _ | e
      · cases h
      · cases e
        · cases h
        · exact ⟨rfl, rfl⟩

/-- The entry loop of `compare_image_with_folder`, described pointwise: which
entries are skipped by the absolute-path identity test, which are attempted
(all the others — there is no extension filter in this mode), and which
results are collected. -/
theorem folder_fold_spec (load : String → Option Mat)
    (abspath : String → String) (metric : Mat → Mat → Option ℚ)
    (base_image_path folder_path : String) (min_similarity : ℚ)
    (base_proc : Mat) :
    ∀ (entries : List String) (acc : FolderAcc),
      entries.foldl (folderStep load abspath metric base_image_path folder_path
        min_similarity base_proc) acc =
      ⟨acc.attempted ++ entries.filter
          (fun f => !(abspath (joinPath folder_path f) == abspath base_image_path)),
       acc.skipped ++ entries.filter
          (fun f => abspath (joinPath folder_path f) == abspath base_image_path),
       acc.results ++ entries.filterMap
          (folderScoreOf load abspath metric base_image_path folder_path
            min_similarity base_proc)⟩ := by
  intro entries
  induction entries with
  | nil => intro acc; simp
  | cons f fs ih =>
    intro acc
    rw [List.foldl_cons, ih]
    by_cases habs : abspath (joinPath folder_path f) = abspath base_image_path
    · simp [folderStep, folderScoreOf, habs, List.filter_cons,
        List.filterMap_cons, List.append_assoc]
    · rcases hl : load (joinPath folder_path f) with _ | cm
      · simp [folderStep, folderScoreOf, habs, hl, List.filter_cons,
          List.filterMap_cons, List.append_assoc]
      · rcases hcmp : compare_images metric base_proc
            (if base_proc.shape = (preprocess_image cm).shape
             then preprocess_image cm
             else cv2_resize (preprocess_image cm) (base_proc.cols, base_proc.rows))
            with _ | sim
        · simp [folderStep, folderScoreOf, habs, hl, hcmp, List.filter_cons,
            List.filterMap_cons, List.append_assoc]
        · by_cases hthr : min_similarity ≤ sim
          · simp [folderStep, folderScoreOf, habs, hl, hcmp, hthr,
              List.filter_cons, List.filterMap_cons, List.append_assoc]
          · simp [folderStep, folderScoreOf, habs, hl, hcmp, hthr,
              List.filter_cons, List.filterMap_cons, List.append_assoc]

/-- A `compare_image_with_folder` run whose base image loads, described field
by field. -/
theorem compare_folder_spec (load : String → Option Mat)
    (abspath : String → String) (metric : Mat → Mat → Option ℚ)
    (base_image_path folder_path : String) (entries : List String)
    (min_similarity : ℚ) (bm : Mat) (hb : load base_image_path = some bm) :
    compare_image_with_folder load abspath metric base_image_path folder_path
        entries min_similarity =
      some ⟨entries.filter
              (fun f => !(abspath (joinPath folder_path f) ==
                          abspath base_image_path)),
            entries.filter
              (fun f => abspath (joinPath folder_path f) ==
                        abspath base_image_path),
            entries.filterMap (folderScoreOf load abspath metric
              base_image_path folder_path min_similarity (preprocess_image bm)),
            (entries.filterMap (folderScoreOf load abspath metric
              base_image_path folder_path min_similarity
              (preprocess_image bm))).insertionSort
                (fun a b => b.2 ≤ a.2)⟩ := by
  unfold compare_image_with_folder
  rw [hb]
  dsimp only
  rw [folder_fold_spec]
  simp

/-- Descending sortedness of the base-vs-folder report. -/
theorem sortPairs_sorted (rs : List (String × ℚ)) :
    (rs.insertionSort (fun a b => b.2 ≤ a.2)).Pairwise
      (fun a b => b.2 ≤ a.2) := by
  haveI h1 : IsTotal (String × ℚ) (fun a b => b.2 ≤ a.2) :=
    ⟨fun a b => le_total b.2 a.2⟩
  haveI h2 : IsTrans (String × ℚ) (fun a b => b.2 ≤ a.2) :=
    ⟨fun a b c hab hbc => le_trans hbc hab⟩
  exact List.sorted_insertionSort _ rs

/-- The base-vs-folder report is a permutation of what was collected. -/
theorem sortPairs_perm (rs : List (String × ℚ)) :
    (rs.insertionSort (fun a b => b.2 ≤ a.2)).Perm rs :=
  List.perm_insertionSort _ rs

/-- The candidate filter accepts exactly the filenames whose lower-cased form
ends in one of the five image extensions. -/
theorem isImageFile_iff (f : String) :
    isImageFile f = true ↔ ∃ e ∈ image_exts, e.data <:+ (strLower f).data := by
  unfold isImageFile strEndsWith
  rw [List.any_eq_true]
  constructor
  · rintro ⟨e, he, hs⟩
    exact ⟨e, he, List.isSuffixOf_iff_suffix.mp hs⟩
  · rintro ⟨e, he, hs⟩
    exact ⟨e, he, List.isSuffixOf_iff_suffix.mpr hs⟩

/-- In every run — completed, interrupted or crashed — the collected results
are exactly the threshold filter of the scoring trace. -/
theorem auto_scan_collected_spec (load : String → Option Mat)
    (metric : Mat → Mat → Option ℚ) (tq : Bool) (ia : Option Nat)
    (isdir : Bool) (entries : List String) (folder_path : String) (thr : ℚ) :
    (auto_scan_folder load metric tq ia isdir entries folder_path thr).collected =
      applyThreshold thr
        (auto_scan_folder load metric tq ia isdir entries folder_path thr).scored := by
  unfold auto_scan_folder
  split
  · simp [applyThreshold]
  · dsimp only
    split
    · simp [applyThreshold]
    · rcases hr : runPairs metric thr tq ia
        ((entries.filter isImageFile).map (joinPath folder_path))
        (pairList ((entries.filter isImageFile).map (joinPath folder_path)).length)
        ⟨buildCache load ((entries.filter isImageFile).map (joinPath folder_path)),
         0, [], [], [], []⟩ with ⟨stf, e⟩
      have key := runPairs_results_spec metric thr tq ia
        ((entries.filter isImageFile).map (joinPath folder_path))
        (pairList ((entries.filter isImageFile).map (joinPath folder_path)).length)
        ⟨buildCache load ((entries.filter isImageFile).map (joinPath folder_path)),
         0, [], [], [], []⟩ (by simp [applyThreshold])
      rw [hr] at key
      rcases e with _ | e
      · exact key
      · cases e
        · exact key
        · exact key

/-- The scoring trace, the interrupt flag and the shape of the return value do
not depend on the threshold; and the returned list never grows when the
threshold is raised. -/
theorem auto_scan_threshold_mono (load : String → Option Mat)
    (metric : Mat → Mat → Option ℚ) (tq : Bool) (ia : Option Nat)
    (isdir : Bool) (entries : List String) (folder_path : String)
    (t t' : ℚ) (hT : t ≤ t') :
    (auto_scan_folder load metric tq ia isdir entries folder_path t').scored =
      (auto_scan_folder load metric tq ia isdir entries folder_path t).scored ∧
    (auto_scan_folder load metric tq ia isdir entries folder_path t').collected.length ≤
      (auto_scan_folder load metric tq ia isdir entries folder_path t).collected.length ∧
    (∀ rs rs',
      (auto_scan_folder load metric tq ia isdir entries folder_path t).retval = .ok rs →
      (auto_scan_folder load metric tq ia isdir entries folder_path t').retval = .ok rs' →
      rs'.length ≤ rs.length) := by
  have hcol := auto_scan_collected_spec load metric tq ia isdir entries folder_path t
  have hcol' := auto_scan_collected_spec load metric tq ia isdir entries folder_path t'
  unfold auto_scan_folder at hcol hcol' ⊢
  split
  · refine ⟨rfl, le_refl _, ?_⟩
    intro rs rs' h h'
    cases h
    cases h'
    exact le_refl _
  · rename_i hdir
    rw [if_neg hdir] at hcol hcol'
    dsimp only at hcol hcol' ⊢
    split
    · refine ⟨rfl, le_refl _, ?_⟩
      intro rs rs' h h'
      cases h
      cases h'
      exact le_refl _
    · rename_i hlen2
      rw [if_neg hlen2] at hcol hcol'
      rcases hr : runPairs metric t tq ia
        ((entries.filter isImageFile).map (joinPath folder_path))
        (pairList ((entries.filter isImageFile).map (joinPath folder_path)).length)
        ⟨buildCache load ((entries.filter isImageFile).map (joinPath folder_path)),
         0, [], [], [], []⟩ with ⟨stf, e⟩
      rcases hr' : runPairs metric t' tq ia
        ((entries.filter isImageFile).map (joinPath folder_path))
        (pairList ((entries.filter isImageFile).map (joinPath folder_path)).length)
        ⟨buildCache load ((entries.filter isImageFile).map (joinPath folder_path)),
         0, [], [], [], []⟩ with ⟨stf', e'⟩
      have hag := runPairs_agree metric t t' tq ia
        ((entries.filter isImageFile).map (joinPath folder_path))
        (pairList ((entries.filter isImageFile).map (joinPath folder_path)).length)
        ⟨buildCache load ((entries.filter isImageFile).map (joinPath folder_path)),
         0, [], [], [], []⟩
        ⟨buildCache load ((entries.filter isImageFile).map (joinPath folder_path)),
         0, [], [], [], []⟩ rfl rfl rfl rfl rfl
      rw [hr, hr'] at hag
      simp only [Prod.mk.injEq] at hag
      obtain ⟨-, -, -, -, hsc, he⟩ := hag
      rw [hr] at hcol
      rw [hr'] at hcol'
      subst he
      have hlen : ∀ (a b : LoopState),
          a.results = applyThreshold t a.scored →
          b.results = applyThreshold t' b.scored →
          b.scored = a.scored → b.results.length ≤ a.results.length := by
        intro a b ha hb hab
        rw [ha, hb, hab]
        exact applyThreshold_antitone t t' hT a.scored
      rcases e with _ | e
      · refine ⟨?_, ?_, ?_⟩
        · exact hsc.symm
        · exact hlen stf stf' hcol hcol' hsc.symm
        · intro rs rs' h h'
          cases h
          cases h'
          rw [(sortResults_perm stf.results).length_eq,
              (sortResults_perm stf'.results).length_eq]
          exact hlen stf stf' hcol hcol' hsc.symm
      · cases e
        · refine ⟨hsc.symm, hlen stf stf' hcol hcol' hsc.symm, ?_⟩
          intro rs rs' h h'
          cases h
        · refine ⟨hsc.symm, hlen stf stf' hcol hcol' hsc.symm, ?_⟩
          intro rs rs' h h'
          cases h
          cases h'
          exact le_refl 0

/-- Inverting one entry of the scoring trace: the two paths are the loop's
candidate paths and both are cached. -/
theorem scoreOf_some (metric : Mat → Mat → Option ℚ)
    (C : List (String × Mat)) (files : List String) (ij : Nat × Nat)
    (x : String × String × Option ℚ)
    (h : scoreOf metric C files ij = some x) :
    ∃ m1 m2, List.lookup (files.getD ij.1 "") C = some m1 ∧
      List.lookup (files.getD ij.2 "") C = some m2 ∧
      x.1 = files.getD ij.1 "" ∧ x.2.1 = files.getD ij.2 "" := by
  unfold scoreOf callOf at h
  rcases hl1 : List.lookup (files.getD ij.1 "") C with _ | m1
  · rw [hl1] at h; cases h
  · rcases hl2 : List.lookup (files.getD ij.2 "") C with _ | m2
    · rw [hl1, hl2] at h; cases h
    · rw [hl1, hl2] at h
      simp only [Option.map_some', Option.some.injEq] at h
      exact ⟨m1, m2, rfl, rfl, by rw [← h], by rw [← h]⟩

/-- Every cache entry is the preprocessed form of a successful decode of its
own path. -/
theorem mem_buildCache (load : String → Option Mat) (fs : List String)
    (e : String × Mat) (h : e ∈ buildCache load fs) :
    ∃ m0, load e.1 = some m0 ∧ e.2 = preprocess_image m0 := by
  unfold buildCache at h
  rw [List.mem_filterMap] at h
  obtain ⟨p, _, hp⟩ := h
  rcases hl : load p with _ | m0
  · rw [hl] at hp; cases hp
  · rw [hl] at hp
    simp only [Option.map_some', Option.some.injEq] at hp
    rw [← hp]
    exact ⟨m0, hl, rfl⟩

/-- When an interrupt fired, it fired at the recorded pair counter, and at
most that many matches had been collected (then discarded). -/
theorem auto_scan_interrupt_bound (load : String → Option Mat)
    (metric : Mat → Mat → Option ℚ) (tq : Bool) (ia : Option Nat)
    (isdir : Bool) (entries : List String) (folder_path : String) (thr : ℚ)
    (h : (auto_scan_folder load metric tq ia isdir entries folder_path thr).interrupted
      = true) :
    ∃ n, ia = some n ∧
      (auto_scan_folder load metric tq ia isdir entries folder_path thr).collected.length
        ≤ n := by
  unfold auto_scan_folder at h ⊢
  split at h
  · cases h
  · rename_i hdir
    rw [if_neg hdir]
    dsimp only at h ⊢
    split at h
    · cases h
    · rename_i hlen
      rw [if_neg hlen]
      rcases hr : runPairs metric thr tq ia
        ((entries.filter isImageFile).map (joinPath folder_path))
        (pairList ((entries.filter isImageFile).map (joinPath folder_path)).length)
        ⟨buildCache load ((entries.filter isImageFile).map (joinPath folder_path)),
         0, [], [], [], []⟩ with ⟨stf, e⟩
      rw [hr] at h
      have hle := runPairs_results_le metric thr tq ia
        ((entries.filter isImageFile).map (joinPath folder_path))
        (pairList ((entries.filter isImageFile).map (joinPath folder_path)).length)
        ⟨buildCache load ((entries.filter isImageFile).map (joinPath folder_path)),
         0, [], [], [], []⟩ (by exact le_refl 0)
      rw [hr] at hle
      rcases e with _ | e
      · cases h
      · cases e
        · cases h
        · have hia := runPairs_interrupt_counter metric thr tq ia
            ((entries.filter isImageFile).map (joinPath folder_path))
            (pairList ((entries.filter isImageFile).map (joinPath folder_path)).length)
            ⟨buildCache load ((entries.filter isImageFile).map (joinPath folder_path)),
             0, [], [], [], []⟩ stf hr
          exact ⟨stf.currentPair, hia, hle⟩

/-- With an existing folder, the enumerated candidate list is exactly the
extension-filtered listing joined onto the folder path, whatever else
happens. -/
theorem auto_scan_image_files (load : String → Option Mat)
    (metric : Mat → Mat → Option ℚ) (tq : Bool) (ia : Option Nat)
    (entries : List String) (folder_path : String) (thr : ℚ) :
    (auto_scan_folder load metric tq ia true entries folder_path thr).image_files =
      (entries.filter isImageFile).map (joinPath folder_path) := by
  unfold auto_scan_folder
  rw [if_neg (by decide)]
  dsimp only
  split
  · rfl
  · rcases hr : runPairs metric thr tq ia
      ((entries.filter isImageFile).map (joinPath folder_path))
      (pairList ((entries.filter isImageFile).map (joinPath folder_path)).length)
      ⟨buildCache load ((entries.filter isImageFile).map (joinPath folder_path)),
       0, [], [], [], []⟩ with ⟨stf, e⟩
    rcases e with _ | e
    · rfl
    · cases e
      · rfl
      · rfl

/-- Equal shapes mean equal dimension fields. -/
theorem shape_eq_fields {a b : Mat} (h : a.shape = b.shape) :
    a.rows = b.rows ∧ a.cols = b.cols ∧ a.channels = b.channels := by
  unfold Mat.shape at h
  simp only [Prod.mk.injEq] at h
  exact h

/-- Equal dimension fields mean equal shapes. -/
theorem shape_eq_of_fields {a b : Mat} (h1 : a.rows = b.rows)
    (h2 : a.cols = b.cols) (h3 : a.channels = b.channels) :
    a.shape = b.shape := by
  unfold Mat.shape
  rw [h1, h2, h3]

/-- C1, counterexample to the claim as stated: with three candidate files of
which one fails to decode, `total_pairs` is `C(3, 2) = 3`, computed up front
from the candidate count, not `C(2, 2) = 1` from the number of successfully
cached images as the claim requires. -/
theorem C1_counterexample :
    (auto_scan_folder demoLoad demoMetric true none true
      ["a.png", "b.png", "bad.png"] "d" 80).total_pairs = 3 ∧
    (auto_scan_folder demoLoad demoMetric true none true
      ["a.png", "b.png", "bad.png"] "d" 80).cache.length = 2 ∧
    (auto_scan_folder demoLoad demoMetric true none true
      ["a.png", "b.png", "bad.png"] "d" 80).total_pairs ≠
      Nat.choose (auto_scan_folder demoLoad demoMetric true none true
        ["a.png", "b.png", "bad.png"] "d" 80).cache.length 2 := by decide

/-- C1 (amended): in a completed scan (progress-bar strategy, no interrupt,
existing folder, at least two candidate files) `auto_scan_folder` visits each
unordered pair of cached images exactly once, in `i < j` index order, and
`total_pairs` is computed once up front as `C(m, 2)` where `m` counts the
enumerated candidate files — which coincides with the claim's `C(n, 2)` over
the cached count `n` exactly when every candidate decodes successfully. -/
theorem C1_pair_enumeration (load : String → Option Mat)
    (metric : Mat → Mat → Option ℚ) (entries : List String)
    (folder_path : String) (thr : ℚ)
    (hn : 2 ≤ (entries.filter isImageFile).length) :
    (let run := auto_scan_folder load metric true none true entries
        folder_path thr
     run.visited.Nodup ∧
     (∀ i j : Nat, ((i, j) ∈ run.visited ↔
        i < j ∧ j < run.image_files.length ∧
        (List.lookup (run.image_files.getD i "") run.cache).isSome = true ∧
        (List.lookup (run.image_files.getD j "") run.cache).isSome = true)) ∧
     run.total_pairs = Nat.choose run.image_files.length 2 ∧
     ((∀ p ∈ run.image_files, (load p).isSome) →
       run.total_pairs = Nat.choose run.cache.length 2)) := by
  rw [auto_scan_fields load metric entries folder_path thr hn]
  dsimp only
  refine ⟨(nodup_pairList _).filter _, ?_, rfl, ?_⟩
  · intro i j
    rw [List.mem_filter, mem_pairList, callOf_isSome]
    constructor
    · rintro ⟨⟨h1, h2⟩, h3⟩
      rw [Bool.and_eq_true] at h3
      exact ⟨h1, h2, h3.1, h3.2⟩
    · rintro ⟨h1, h2, h3, h4⟩
      refine ⟨⟨h1, h2⟩, ?_⟩
      rw [Bool.and_eq_true]
      exact ⟨h3, h4⟩
  · intro hall
    rw [buildCache_length load _ hall]

/-- Witness for `C1_pair_enumeration` on a concrete scan with one undecodable
candidate. -/
theorem C1_pair_enumeration_witness :
    2 ≤ ((["a.png", "b.png", "bad.png"].filter isImageFile)).length ∧
    (let run := auto_scan_folder demoLoad demoMetric true none true
        ["a.png", "b.png", "bad.png"] "d" 80
     run.visited.Nodup ∧
     (∀ i j : Nat, ((i, j) ∈ run.visited ↔
        i < j ∧ j < run.image_files.length ∧
        (List.lookup (run.image_files.getD i "") run.cache).isSome = true ∧
        (List.lookup (run.image_files.getD j "") run.cache).isSome = true)) ∧
     run.total_pairs = Nat.choose run.image_files.length 2 ∧
     ((∀ p ∈ run.image_files, (demoLoad p).isSome) →
       run.total_pairs = Nat.choose run.cache.length 2)) :=
  ⟨by decide, C1_pair_enumeration demoLoad demoMetric
    ["a.png", "b.png", "bad.png"] "d" 80 (by decide)⟩

/-- C2, counterexample to the claim as stated: cancelling a 5-image scan
(10 pairs) after 4 processed pairs has 4 collected matches, but the
`KeyboardInterrupt` handler returns the literal empty list — the partial
result set is discarded, not returned. -/
theorem C2_counterexample :
    (auto_scan_folder demoLoad demoMetric true (some 4) true
      ["a.png", "b.png", "c.png", "d.png", "e.png"] "d" 50).interrupted = true ∧
    (auto_scan_folder demoLoad demoMetric true (some 4) true
      ["a.png", "b.png", "c.png", "d.png", "e.png"] "d" 50).collected.length = 4 ∧
    (auto_scan_folder demoLoad demoMetric true (some 4) true
      ["a.png", "b.png", "c.png", "d.png", "e.png"] "d" 50).retval = .ok [] ∧
    (auto_scan_folder demoLoad demoMetric true (some 4) true
      ["a.png", "b.png", "c.png", "d.png", "e.png"] "d" 50).retval ≠
      .ok (auto_scan_folder demoLoad demoMetric true (some 4) true
        ["a.png", "b.png", "c.png", "d.png", "e.png"] "d" 50).collected := by
  decide

/-- C2 (amended): operator cancellation after `k` processed pairs does not
raise — `auto_scan_folder` catches the interrupt and returns the literal
empty list, displaying nothing and discarding the at most `k` matches
collected from those `k` pairs. -/
theorem C2_cancellation_returns_empty (load : String → Option Mat)
    (metric : Mat → Mat → Option ℚ) (tq : Bool) (isdir : Bool)
    (entries : List String) (folder_path : String) (thr : ℚ) (k : Nat)
    (h : (auto_scan_folder load metric tq (some k) isdir entries
      folder_path thr).interrupted = true) :
    (auto_scan_folder load metric tq (some k) isdir entries
      folder_path thr).retval = .ok [] ∧
    (auto_scan_folder load metric tq (some k) isdir entries
      folder_path thr).displayed = [] ∧
    (auto_scan_folder load metric tq (some k) isdir entries
      folder_path thr).collected.length ≤ k := by
  obtain ⟨h1, h2⟩ := auto_scan_interrupted load metric tq (some k) isdir
    entries folder_path thr h
  obtain ⟨n, hn, hb⟩ := auto_scan_interrupt_bound load metric tq (some k)
    isdir entries folder_path thr h
  refine ⟨h1, h2, ?_⟩
  cases hn
  exact hb

/-- Witness for `C2_cancellation_returns_empty`: a 5-image scan interrupted
after 3 pairs. -/
theorem C2_cancellation_witness :
    (auto_scan_folder demoLoad demoMetric true (some 3) true
      ["a.png", "b.png", "c.png", "d.png", "e.png"] "d" 50).interrupted = true ∧
    ((auto_scan_folder demoLoad demoMetric true (some 3) true
      ["a.png", "b.png", "c.png", "d.png", "e.png"] "d" 50).retval = .ok [] ∧
    (auto_scan_folder demoLoad demoMetric true (some 3) true
      ["a.png", "b.png", "c.png", "d.png", "e.png"] "d" 50).displayed = [] ∧
    (auto_scan_folder demoLoad demoMetric true (some 3) true
      ["a.png", "b.png", "c.png", "d.png", "e.png"] "d" 50).collected.length ≤ 3) :=
  ⟨by decide, C2_cancellation_returns_empty demoLoad demoMetric true true
    ["a.png", "b.png", "c.png", "d.png", "e.png"] "d" 50 3 (by decide)⟩

/-- C3: with the progress-bar library absent (`tq = false`) the first
per-pair progress update reads the never-assigned local `progress` and the
scan dies with `UnboundLocalError` after one visited pair of the expected
three — an error that is neither a configuration error nor a cancellation
ends the scan early and propagates out of `auto_scan_folder`, contradicting
the claim for the text display strategy (the code slip the specification
itself flags in its design notes). -/
theorem C3_unbound_progress :
    (auto_scan_folder demoLoad demoMetric false none true
      ["a.png", "b.png", "c.png"] "d" 80).retval = .exn .unboundLocal ∧
    (auto_scan_folder demoLoad demoMetric false none true
      ["a.png", "b.png", "c.png"] "d" 80).visited.length = 1 ∧
    (auto_scan_folder demoLoad demoMetric false none true
      ["a.png", "b.png", "c.png"] "d" 80).total_pairs = 3 := by decide

/-- C4: the threshold admits a pair inclusively (`score >= threshold`): the
collected list is exactly the threshold filter of the scoring trace, every
collected result reached the threshold, every successfully scored pair at or
above the threshold is collected, the scoring trace does not depend on the
threshold, and raising the threshold never increases the collected count nor
the length of the returned result list. -/
theorem C4_threshold_inclusive_monotone (load : String → Option Mat)
    (metric : Mat → Mat → Option ℚ) (tq : Bool) (ia : Option Nat)
    (isdir : Bool) (entries : List String) (folder_path : String)
    (t t' : ℚ) (hT : t ≤ t') :
    (let r := auto_scan_folder load metric tq ia isdir entries folder_path t
     let r' := auto_scan_folder load metric tq ia isdir entries folder_path t'
     r.collected = applyThreshold t r.scored ∧
     (∀ m ∈ r.collected, t ≤ m.sim) ∧
     (∀ x ∈ r.scored, ∀ s : ℚ, x.2.2 = some s → t ≤ s →
       (⟨basename x.1, basename x.2.1, s⟩ : MatchRes) ∈ r.collected) ∧
     r'.scored = r.scored ∧
     r'.collected.length ≤ r.collected.length ∧
     (∀ rs rs', r.retval = .ok rs → r'.retval = .ok rs' →
       rs'.length ≤ rs.length)) := by
  dsimp only
  obtain ⟨hsc, hlen, hret⟩ := auto_scan_threshold_mono load metric tq ia
    isdir entries folder_path t t' hT
  have hcol := auto_scan_collected_spec load metric tq ia isdir entries
    folder_path t
  refine ⟨hcol, ?_, ?_, hsc, hlen, hret⟩
  · intro m hm
    rw [hcol] at hm
    exact applyThreshold_sim t _ m hm
  · intro x hx s hs ht2
    rw [hcol, applyThreshold_mem]
    exact ⟨x, hx, s, hs, ht2, rfl⟩

/-- Witness for `C4_threshold_inclusive_monotone`: the same 3-image scan at
thresholds 50 and 80. -/
theorem C4_threshold_witness :
    (50 : ℚ) ≤ 80 ∧
    (let r := auto_scan_folder demoLoad demoMetric true none true
        ["a.png", "b.png", "c.png"] "d" 50
     let r' := auto_scan_folder demoLoad demoMetric true none true
        ["a.png", "b.png", "c.png"] "d" 80
     r.collected = applyThreshold 50 r.scored ∧
     (∀ m ∈ r.collected, (50 : ℚ) ≤ m.sim) ∧
     (∀ x ∈ r.scored, ∀ s : ℚ, x.2.2 = some s → (50 : ℚ) ≤ s →
       (⟨basename x.1, basename x.2.1, s⟩ : MatchRes) ∈ r.collected) ∧
     r'.scored = r.scored ∧
     r'.collected.length ≤ r.collected.length ∧
     (∀ rs rs', r.retval = .ok rs → r'.retval = .ok rs' →
       rs'.length ≤ rs.length)) :=
  ⟨by decide, C4_threshold_inclusive_monotone demoLoad demoMetric true none
    true ["a.png", "b.png", "c.png"] "d" 50 80 (by decide)⟩

/-- C5: a completed scan returns the full collected sequence sorted by score
descending, the sort is stable — every score class keeps the relative order
produced by pair enumeration — and the displayed view is exactly the first 20
entries of the returned sequence. -/
theorem C5_sorted_stable_top20 (load : String → Option Mat)
    (metric : Mat → Mat → Option ℚ) (entries : List String)
    (folder_path : String) (thr : ℚ)
    (hn : 2 ≤ (entries.filter isImageFile).length) :
    (let run := auto_scan_folder load metric true none true entries
        folder_path thr
     ∀ rs, run.retval = .ok rs →
       rs.Pairwise (fun a b => b.sim ≤ a.sim) ∧
       rs.Perm run.collected ∧
       (∀ q : ℚ, rs.filter (fun x => x.sim = q) =
         run.collected.filter (fun x => x.sim = q)) ∧
       run.displayed = rs.take 20) := by
  rw [auto_scan_fields load metric entries folder_path thr hn]
  dsimp only
  intro rs h
  cases h
  exact ⟨sortResults_sorted _, sortResults_perm _,
    fun q => sortResults_filter_key q _, rfl⟩

/-- Witness for `C5_sorted_stable_top20` on a concrete completed scan. -/
theorem C5_sorted_witness :
    2 ≤ ((["a.png", "b.png", "c.png"].filter isImageFile)).length ∧
    (let run := auto_scan_folder demoLoad demoMetric true none true
        ["a.png", "b.png", "c.png"] "d" 40
     ∀ rs, run.retval = .ok rs →
       rs.Pairwise (fun a b => b.sim ≤ a.sim) ∧
       rs.Perm run.collected ∧
       (∀ q : ℚ, rs.filter (fun x => x.sim = q) =
         run.collected.filter (fun x => x.sim = q)) ∧
       run.displayed = rs.take 20) :=
  ⟨by decide, C5_sorted_stable_top20 demoLoad demoMetric
    ["a.png", "b.png", "c.png"] "d" 40 (by decide)⟩

/-- C6: in base-vs-folder mode the base image is excluded by absolute-path
equality alone — the skipped entries are exactly those whose absolute path
equals the base's, every other entry is attempted whatever its name or
content — and the displayed report is the collected results sorted descending
by score. -/
theorem C6_base_excluded_by_abspath (load : String → Option Mat)
    (abspath : String → String) (metric : Mat → Mat → Option ℚ)
    (base_image_path folder_path : String) (entries : List String)
    (min_similarity : ℚ) (bm : Mat)
    (hb : load base_image_path = some bm) :
    ∀ fr, compare_image_with_folder load abspath metric base_image_path
        folder_path entries min_similarity = some fr →
      fr.skipped = entries.filter
        (fun f => abspath (joinPath folder_path f) ==
                  abspath base_image_path) ∧
      fr.attempted = entries.filter
        (fun f => !(abspath (joinPath folder_path f) ==
                    abspath base_image_path)) ∧
      fr.displayed.Pairwise (fun a b => b.2 ≤ a.2) ∧
      fr.displayed.Perm fr.collected := by
  intro fr h
  rw [compare_folder_spec load abspath metric base_image_path folder_path
    entries min_similarity bm hb] at h
  cases h
  exact ⟨rfl, rfl, sortPairs_sorted _, sortPairs_perm _⟩

/-- Witness for `C6_base_excluded_by_abspath`: a folder holding the base
itself plus a byte-identical copy under another name — the copy is attempted,
the base is skipped by path identity. -/
theorem C6_base_excluded_witness :
    demoLoad "d/base.png" = some ⟨50, 50, 3, 9⟩ ∧
    (∀ fr, compare_image_with_folder demoLoad id demoMetric "d/base.png" "d"
        ["base.png", "copy.png"] 40 = some fr →
      fr.skipped = ["base.png", "copy.png"].filter
        (fun f => id (joinPath "d" f) == id "d/base.png") ∧
      fr.attempted = ["base.png", "copy.png"].filter
        (fun f => !(id (joinPath "d" f) == id "d/base.png")) ∧
      fr.displayed.Pairwise (fun a b => b.2 ≤ a.2) ∧
      fr.displayed.Perm fr.collected) :=
  ⟨by decide, C6_base_excluded_by_abspath demoLoad id demoMetric "d/base.png"
    "d" ["base.png", "copy.png"] 40 ⟨50, 50, 3, 9⟩ (by decide)⟩

/-- C7: an undecodable input path is simply absent from the cache (no entry,
no error record), every visited pair has both endpoints cached — pairs
involving the missing path are skipped — the scan still completes and
returns, and every returned `MatchRes` references only successfully cached
images. -/
theorem C7_decode_failure_skipped (load : String → Option Mat)
    (metric : Mat → Mat → Option ℚ) (entries : List String)
    (folder_path : String) (thr : ℚ)
    (hn : 2 ≤ (entries.filter isImageFile).length) :
    (let run := auto_scan_folder load metric true none true entries
        folder_path thr
     (∀ p, load p = none → List.lookup p run.cache = none) ∧
     (∀ ij ∈ run.visited,
       (List.lookup (run.image_files.getD ij.1 "") run.cache).isSome = true ∧
       (List.lookup (run.image_files.getD ij.2 "") run.cache).isSome = true) ∧
     (∃ rs, run.retval = .ok rs) ∧
     (∀ rs, run.retval = .ok rs → ∀ r ∈ rs,
       ∃ p1 m1 p2 m2, List.lookup p1 run.cache = some m1 ∧
         List.lookup p2 run.cache = some m2 ∧
         r.left = basename p1 ∧ r.right = basename p2)) := by
  rw [auto_scan_fields load metric entries folder_path thr hn]
  dsimp only
  refine ⟨?_, ?_, ⟨_, rfl⟩, ?_⟩
  · intro p hp
    exact lookup_buildCache_none load _ p hp
  · intro ij hij
    rw [List.mem_filter] at hij
    have h3 := hij.2
    rw [callOf_isSome, Bool.and_eq_true] at h3
    exact h3
  · intro rs h r hr
    cases h
    rw [(sortResults_perm _).mem_iff] at hr
    rw [applyThreshold_mem] at hr
    obtain ⟨x, hx, s, hs, hts, hreq⟩ := hr
    rw [List.mem_filterMap] at hx
    obtain ⟨ij, -, hsc⟩ := hx
    obtain ⟨m1, m2, hl1, hl2, hx1, hx2⟩ := scoreOf_some metric _ _ ij x hsc
    subst hreq
    exact ⟨x.1, m1, x.2.1, m2, by rw [hx1]; exact hl1,
      by rw [hx2]; exact hl2, rfl, rfl⟩

/-- Witness for `C7_decode_failure_skipped`: a 3-candidate folder whose third
file fails to decode. -/
theorem C7_decode_failure_witness :
    2 ≤ ((["a.png", "b.png", "bad.png"].filter isImageFile)).length ∧
    (let run := auto_scan_folder demoLoad demoMetric true none true
        ["a.png", "b.png", "bad.png"] "d" 40
     (∀ p, demoLoad p = none → List.lookup p run.cache = none) ∧
     (∀ ij ∈ run.visited,
       (List.lookup (run.image_files.getD ij.1 "") run.cache).isSome = true ∧
       (List.lookup (run.image_files.getD ij.2 "") run.cache).isSome = true) ∧
     (∃ rs, run.retval = .ok rs) ∧
     (∀ rs, run.retval = .ok rs → ∀ r ∈ rs,
       ∃ p1 m1 p2 m2, List.lookup p1 run.cache = some m1 ∧
         List.lookup p2 run.cache = some m2 ∧
         r.left = basename p1 ∧ r.right = basename p2)) :=
  ⟨by decide, C7_decode_failure_skipped demoLoad demoMetric
    ["a.png", "b.png", "bad.png"] "d" 40 (by decide)⟩

/-- C8: dimension reconciliation resizes the second operand to the first's
dimensions and is local to that single comparison — in every run, whatever
the display strategy or interrupt timing, the cache after the scoring phase
equals the cache before it, each metric invocation receives operands agreeing
on rows and columns, and each second operand is a cache entry passed either
unchanged or resized to the first operand's dimensions, never written back. -/
theorem C8_reconciliation_local (load : String → Option Mat)
    (metric : Mat → Mat → Option ℚ) (tq : Bool) (ia : Option Nat)
    (isdir : Bool) (entries : List String) (folder_path : String) (thr : ℚ) :
    (let run := auto_scan_folder load metric tq ia isdir entries
        folder_path thr
     run.cacheAfter = run.cache ∧
     (∀ c ∈ run.calls, c.2.rows = c.1.rows ∧ c.2.cols = c.1.cols) ∧
     (∀ c ∈ run.calls, ∃ p2 m2, List.lookup p2 run.cache = some m2 ∧
       (c.2 = m2 ∨ c.2 = cv2_resize m2 (c.1.cols, c.1.rows)))) := by
  dsimp only
  obtain ⟨h1, -, h3⟩ := auto_scan_props load metric tq ia isdir entries
    folder_path thr
  refine ⟨h1, ?_, ?_⟩
  · intro c hc
    obtain ⟨p1, p2, m1, m2, hl1, hl2, hceq⟩ := h3 c hc
    subst hceq
    by_cases hsh : m1.shape = m2.shape
    · rw [if_neg (fun hne => hne hsh)]
      obtain ⟨hr, hcl, -⟩ := shape_eq_fields hsh
      exact ⟨hr.symm, hcl.symm⟩
    · rw [if_pos hsh]
      exact ⟨rfl, rfl⟩
  · intro c hc
    obtain ⟨p1, p2, m1, m2, hl1, hl2, hceq⟩ := h3 c hc
    subst hceq
    by_cases hsh : m1.shape = m2.shape
    · refine ⟨p2, m2, hl2, Or.inl ?_⟩
      rw [if_neg (fun hne => hne hsh)]
    · refine ⟨p2, m2, hl2, Or.inr ?_⟩
      rw [if_pos hsh]

/-- Witness for `C8_reconciliation_local` on a concrete interrupted run. -/
theorem C8_reconciliation_witness :
    (let run := auto_scan_folder demoLoad demoMetric true (some 2) true
        ["a.png", "b.png", "c.png"] "d" 40
     run.cacheAfter = run.cache ∧
     (∀ c ∈ run.calls, c.2.rows = c.1.rows ∧ c.2.cols = c.1.cols) ∧
     (∀ c ∈ run.calls, ∃ p2 m2, List.lookup p2 run.cache = some m2 ∧
       (c.2 = m2 ∨ c.2 = cv2_resize m2 (c.1.cols, c.1.rows)))) :=
  C8_reconciliation_local demoLoad demoMetric true (some 2) true
    ["a.png", "b.png", "c.png"] "d" 40

/-- C9, counterexample to the claim as stated: base-vs-folder mode applies no
extension filter — a decodable file named `zz.txt`, whose extension matches
none of the five image extensions, is still loaded, scored and collected. -/
theorem C9_counterexample :
    isImageFile "zz.txt" = false ∧
    (compare_image_with_folder demoLoad id demoMetric "d/base.png" "d"
      ["zz.txt"] 40).map FolderRun.collected = some [("zz.txt", 100)] := by
  decide

/-- C9 (amended): only the auto-scan mode filters folder entries by the
case-insensitive extension list `.png .jpg .jpeg .bmp .tiff`, silently
dropping non-matching entries from enumeration; base-vs-folder mode applies
no extension filter — every entry other than the base (by absolute path) is
attempted. -/
theorem C9_extension_filter (load : String → Option Mat)
    (abspath : String → String) (metric : Mat → Mat → Option ℚ)
    (tq : Bool) (ia : Option Nat) (entries : List String)
    (base_image_path folder_path : String) (thr : ℚ) :
    (auto_scan_folder load metric tq ia true entries
        folder_path thr).image_files =
      (entries.filter isImageFile).map (joinPath folder_path) ∧
    (∀ f : String, isImageFile f = true ↔
      ∃ e ∈ image_exts, e.data <:+ (strLower f).data) ∧
    (∀ bm, load base_image_path = some bm → ∀ fr,
      compare_image_with_folder load abspath metric base_image_path
        folder_path entries thr = some fr →
      fr.attempted = entries.filter
        (fun f => !(abspath (joinPath folder_path f) ==
                    abspath base_image_path))) := by
  refine ⟨auto_scan_image_files load metric tq ia entries folder_path thr,
    isImageFile_iff, ?_⟩
  intro bm hb fr h
  rw [compare_folder_spec load abspath metric base_image_path folder_path
    entries thr bm hb] at h
  cases h
  rfl

/-- Witness for `C9_extension_filter` on a concrete folder listing mixing
image and non-image extensions. -/
theorem C9_extension_filter_witness :
    (auto_scan_folder demoLoad demoMetric true none true
        ["a.png", "zz.txt", "b.png"] "d" 40).image_files =
      ((["a.png", "zz.txt", "b.png"].filter isImageFile)).map (joinPath "d") ∧
    (∀ f : String, isImageFile f = true ↔
      ∃ e ∈ image_exts, e.data <:+ (strLower f).data) ∧
    (∀ bm, demoLoad "d/base.png" = some bm → ∀ fr,
      compare_image_with_folder demoLoad id demoMetric "d/base.png"
        "d" ["a.png", "zz.txt", "b.png"] 40 = some fr →
      fr.attempted = ["a.png", "zz.txt", "b.png"].filter
        (fun f => !(id (joinPath "d" f) == id "d/base.png"))) :=
  C9_extension_filter demoLoad id demoMetric true none
    ["a.png", "zz.txt", "b.png"] "d/base.png" "d" 40

/-- C10: every cached image was produced by `preprocess_image` at the default
target size and is a 300×300 single-channel matrix; any two cache entries
therefore share a shape, the reconciliation branch is never taken for
cache-produced images — each metric call receives its second operand exactly
as cached — and the metric's equal-shape precondition holds at every call. -/
theorem C10_cache_uniform_shape (load : String → Option Mat)
    (metric : Mat → Mat → Option ℚ) (tq : Bool) (ia : Option Nat)
    (isdir : Bool) (entries : List String) (folder_path : String) (thr : ℚ) :
    (let run := auto_scan_folder load metric tq ia isdir entries
        folder_path thr
     (∀ e ∈ run.cache, e.2.rows = 300 ∧ e.2.cols = 300 ∧ e.2.channels = 1) ∧
     (∀ e e', e ∈ run.cache → e' ∈ run.cache → e.2.shape = e'.2.shape) ∧
     (∀ c ∈ run.calls, c.1.shape = c.2.shape) ∧
     (∀ c ∈ run.calls, ∃ p2 m2, List.lookup p2 run.cache = some m2 ∧
       c.2 = m2)) := by
  dsimp only
  obtain ⟨-, h2, h3⟩ := auto_scan_props load metric tq ia isdir entries
    folder_path thr
  have hmem : ∀ e ∈ (auto_scan_folder load metric tq ia isdir entries
      folder_path thr).cache,
      e.2.rows = 300 ∧ e.2.cols = 300 ∧ e.2.channels = 1 := by
    intro e he
    rcases h2 with hc | hc
    · rw [hc] at he; cases he
    · rw [hc] at he
      obtain ⟨m0, -, hm⟩ := mem_buildCache load _ e he
      rw [hm]
      exact ⟨rfl, rfl, rfl⟩
  have hlk : ∀ p m, List.lookup p (auto_scan_folder load metric tq ia isdir
      entries folder_path thr).cache = some m →
      m.rows = 300 ∧ m.cols = 300 ∧ m.channels = 1 := by
    intro p m hl
    rcases h2 with hc | hc
    · rw [hc] at hl; cases hl
    · rw [hc] at hl
      obtain ⟨m0, -, hm⟩ := lookup_buildCache_some load _ p m hl
      rw [hm]
      exact ⟨rfl, rfl, rfl⟩
  refine ⟨hmem, ?_, ?_, ?_⟩
  · intro e e' he he'
    obtain ⟨a1, b1, c1⟩ := hmem e he
    obtain ⟨a2, b2, c2⟩ := hmem e' he'
    exact shape_eq_of_fields (by rw [a1, a2]) (by rw [b1, b2])
      (by rw [c1, c2])
  · intro c hc
    obtain ⟨p1, p2, m1, m2, hl1, hl2, hceq⟩ := h3 c hc
    obtain ⟨a1, b1, c1⟩ := hlk _ _ hl1
    obtain ⟨a2, b2, c2⟩ := hlk _ _ hl2
    have hsh : m1.shape = m2.shape :=
      shape_eq_of_fields (by rw [a1, a2]) (by rw [b1, b2]) (by rw [c1, c2])
    subst hceq
    rw [if_neg (fun hne => hne hsh)]
    exact hsh
  · intro c hc
    obtain ⟨p1, p2, m1, m2, hl1, hl2, hceq⟩ := h3 c hc
    obtain ⟨a1, b1, c1⟩ := hlk _ _ hl1
    obtain ⟨a2, b2, c2⟩ := hlk _ _ hl2
    have hsh : m1.shape = m2.shape :=
      shape_eq_of_fields (by rw [a1, a2]) (by rw [b1, b2]) (by rw [c1, c2])
    subst hceq
    refine ⟨p2, m2, hl2, ?_⟩
    rw [if_neg (fun hne => hne hsh)]

/-- Witness for `C10_cache_uniform_shape` on a concrete completed scan. -/
theorem C10_cache_uniform_witness :
    (let run := auto_scan_folder demoLoad demoMetric true none true
        ["a.png", "b.png", "c.png"] "d" 40
     (∀ e ∈ run.cache, e.2.rows = 300 ∧ e.2.cols = 300 ∧ e.2.channels = 1) ∧
     (∀ e e', e ∈ run.cache → e' ∈ run.cache → e.2.shape = e'.2.shape) ∧
     (∀ c ∈ run.calls, c.1.shape = c.2.shape) ∧
     (∀ c ∈ run.calls, ∃ p2 m2, List.lookup p2 run.cache = some m2 ∧
       c.2 = m2)) :=
  C10_cache_uniform_shape demoLoad demoMetric true none true
    ["a.png", "b.png", "c.png"] "d" 40

end ImageSim
